import Mathlib

/-!
Shallow embedding of the hotel-invoice itemization engine of the ez-expense
repository, together with the verification of its specification claims.

Embedded modules:
* `src/hotel_itemizer/models.py` — the data model (`HotelCategoryEnum`,
  `HotelLineItem`, `HotelInvoiceDetails`, `ConsolidatedCategory`,
  `MSExpenseItemEntry`, `HotelItemizationResult`).
* `src/hotel_itemizer/config.py` — the category classification sets
  (`DAILY_RATE_CATEGORIES`, `ONE_TIME_CATEGORIES`).
* `src/hotel_itemizer/hotel_categorizer.py` — `validate_categories`,
  `consolidate_categories`, `suggest_category_for_description`.
* `src/hotel_itemizer/daily_rate_calculator.py` — `calculate_nights`,
  `calculate_daily_rates`, `adjust_for_rounding`.
* `src/hotel_itemizer/hotel_validator.py` — `validate_categorization`,
  `create_itemization_result`.

Modelling conventions: Python `Decimal` values become `ℚ` (the source uses
exact arbitrary-precision decimal arithmetic and all reconciliation
tolerances are exact, so rationals are a faithful model); Python `date`
values become `ℤ` (a day count — the only operation the source performs on
dates is `(d2 - d1).days`, which becomes integer subtraction); Python
`Optional[T]` becomes `Option T`; Python `dict` grouping becomes an
insertion-ordered association list, matching the guaranteed insertion-order
iteration of Python 3.7+ dicts.  Numeric interpolations inside error-message
strings are rendered with `ratStr`; the claims only inspect messages whose
identifying text is a fixed prefix, never the rendered numbers.
-/

namespace EzExpense

/-- Hotel expense categories, from `HotelCategoryEnum` in
`src/hotel_itemizer/models.py`. -/
inductive HotelCategoryEnum where
  | DAILY_ROOM_RATE
  | HOTEL_DEPOSIT
  | HOTEL_TAX
  | HOTEL_TELEPHONE
  | INCIDENTALS
  | LAUNDRY
  | ROOM_SERVICE_MEALS
  | IGNORE
deriving DecidableEq, Repr

/-- String value of each category (the `str`-enum values in `models.py`). -/
def HotelCategoryEnum.value : HotelCategoryEnum → String
  | .DAILY_ROOM_RATE => "Daily Room Rate"
  | .HOTEL_DEPOSIT => "Hotel Deposit"
  | .HOTEL_TAX => "Hotel Tax"
  | .HOTEL_TELEPHONE => "Hotel Telephone"
  | .INCIDENTALS => "Incidentals"
  | .LAUNDRY => "Laundry"
  | .ROOM_SERVICE_MEALS => "Room Service & Meals etc"
  | .IGNORE => "Ignore"

/-- Categories charged daily, from `DAILY_RATE_CATEGORIES` in
`src/hotel_itemizer/config.py` (the source set contains only
"Daily Room Rate"). -/
def DAILY_RATE_CATEGORIES : List String := ["Daily Room Rate"]

/-- One-time-charge categories, from `ONE_TIME_CATEGORIES` in
`src/hotel_itemizer/config.py`.  Note that "Hotel Tax" is listed here,
not in `DAILY_RATE_CATEGORIES`. -/
def ONE_TIME_CATEGORIES : List String :=
  ["Hotel Deposit", "Hotel Tax", "Hotel Telephone", "Incidentals", "Laundry",
   "Room Service & Meals etc"]

/-- A line item of a hotel invoice (`HotelLineItem` in `models.py`). -/
structure HotelLineItem where
  description : String
  amount : ℚ
  suggested_category : Option HotelCategoryEnum := none
  user_category : Option HotelCategoryEnum := none
deriving DecidableEq, Repr

/-- Extracted hotel invoice (`HotelInvoiceDetails` in `models.py`); dates are
day counts. -/
structure HotelInvoiceDetails where
  hotel_name : String
  check_in_date : ℤ
  check_out_date : ℤ
  total_amount : ℚ
  line_items : List HotelLineItem
deriving DecidableEq

/-- A consolidated category (`ConsolidatedCategory` in `models.py`).  The
source declares `daily_rate` as `Optional`, but every construction site
(`consolidate_categories`) supplies it, so it is modelled as a plain `ℚ`. -/
structure ConsolidatedCategory where
  category : HotelCategoryEnum
  total_amount : ℚ
  daily_rate : ℚ
  quantity : ℤ
  source_items : List HotelLineItem
deriving DecidableEq, Repr

/-- An MS Expense itemization entry (`MSExpenseItemEntry` in `models.py`). -/
structure MSExpenseItemEntry where
  subcategory : HotelCategoryEnum
  start_date : ℤ
  daily_rate : ℚ
  quantity : ℤ
  total_amount : ℚ
deriving DecidableEq, Repr

/-- Final itemization result (`HotelItemizationResult` in `models.py`). -/
structure HotelItemizationResult where
  invoice_details : HotelInvoiceDetails
  consolidated_categories : List ConsolidatedCategory
  total_itemized : ℚ
  total_original : ℚ
  validation_passed : Bool
  number_of_nights : ℤ
deriving DecidableEq

/-- Rendering of a rational inside an error-message string (the source
interpolates `Decimal` values; no claim inspects the rendered digits). -/
def ratStr (q : ℚ) : String := toString q.num ++ "/" ++ toString q.den

/-- A single-quote character as a string (used inside source messages). -/
def sq : String := String.mk ['\x27']

/-- The all-Ignore error message emitted by
`HotelValidator.validate_categorization` (`hotel_validator.py` line 128). -/
def allIgnoreMsg : String :=
  "All items are marked as " ++ sq ++ "Ignore" ++ sq ++
    " - at least some items should be categorized"

/-- The category a line item is grouped under: its `user_category` when that
is assigned and is not `Ignore` (the condition
`item.user_category and item.user_category != HotelCategoryEnum.IGNORE`
in `hotel_categorizer.py` line 98 — every category value is a non-empty
string, hence truthy, so the Python truthiness test is exactly
non-`None`-ness). -/
def keepCat (it : HotelLineItem) : Option HotelCategoryEnum :=
  match it.user_category with
  | some c => if c = HotelCategoryEnum.IGNORE then none else some c
  | none => none

/-- Whether a line item has `user_category == HotelCategoryEnum.IGNORE`. -/
def isIgnored (it : HotelLineItem) : Bool :=
  match it.user_category with
  | some HotelCategoryEnum.IGNORE => true
  | _ => false

/-- Append a line item to its category's group, creating the group at the end
on first occurrence — the behaviour of the insertion-ordered Python dict in
`consolidate_categories` (`hotel_categorizer.py` lines 95-101). -/
def insertGrouped (groups : List (HotelCategoryEnum × List HotelLineItem))
    (c : HotelCategoryEnum) (it : HotelLineItem) :
    List (HotelCategoryEnum × List HotelLineItem) :=
  match groups with
  | [] => [(c, [it])]
  | (c0, l) :: rest =>
      if c0 = c then (c0, l ++ [it]) :: rest
      else (c0, l) :: insertGrouped rest c it

/-- One iteration of the grouping loop of `consolidate_categories`. -/
def groupStep (groups : List (HotelCategoryEnum × List HotelLineItem))
    (it : HotelLineItem) : List (HotelCategoryEnum × List HotelLineItem) :=
  match keepCat it with
  | some c => insertGrouped groups c it
  | none => groups

/-- The `category_groups` dict built by `consolidate_categories`. -/
def groupLineItems (items : List HotelLineItem) :
    List (HotelCategoryEnum × List HotelLineItem) :=
  items.foldl groupStep []

/-- Lookup of a category's group (empty when absent). -/
def groupFind : List (HotelCategoryEnum × List HotelLineItem) →
    HotelCategoryEnum → List HotelLineItem
  | [], _ => []
  | (c0, l) :: rest, c => if c0 = c then l else groupFind rest c

/-- The nights computation inlined in `consolidate_categories`
(`hotel_categorizer.py` lines 104-106). -/
def consolidateNights (inv : HotelInvoiceDetails) : ℤ :=
  let nights := inv.check_out_date - inv.check_in_date
  if nights ≤ 0 then 1 else nights

/-- Build one `ConsolidatedCategory` from a group
(`hotel_categorizer.py` lines 113-134). -/
def mkConsolidated (nights : ℤ)
    (g : HotelCategoryEnum × List HotelLineItem) : ConsolidatedCategory :=
  let total_amount := (g.2.map (fun it => it.amount)).sum
  if g.1.value ∈ DAILY_RATE_CATEGORIES then
    { category := g.1, total_amount := total_amount,
      daily_rate := total_amount / (nights : ℚ), quantity := nights,
      source_items := g.2 }
  else
    { category := g.1, total_amount := total_amount,
      daily_rate := total_amount, quantity := 1, source_items := g.2 }

/-- `HotelCategorizer.consolidate_categories`
(`hotel_categorizer.py` lines 81-141). -/
def consolidate_categories (inv : HotelInvoiceDetails) :
    List ConsolidatedCategory :=
  (groupLineItems inv.line_items).map (mkConsolidated (consolidateNights inv))

/-- `DailyRateCalculator.calculate_nights`
(`daily_rate_calculator.py` lines 25-37). -/
def calculate_nights (check_in check_out : ℤ) : ℤ :=
  max 1 (check_out - check_in)

/-- `DailyRateCalculator.calculate_daily_rates`
(`daily_rate_calculator.py` lines 39-87): one entry per non-`Ignore`
consolidated category, with `start_date = check_in`. -/
def calculate_daily_rates (cats : List ConsolidatedCategory)
    (check_in : ℤ) (_check_out : ℤ) : List MSExpenseItemEntry :=
  (cats.filter (fun c => c.category ≠ HotelCategoryEnum.IGNORE)).map
    (fun c =>
      { subcategory := c.category, start_date := check_in,
        daily_rate := c.daily_rate, quantity := c.quantity,
        total_amount := c.total_amount })

/-- First index of the entry with the largest `total_amount`, the semantics
of `max(range(len(...)), key=...)` in `adjust_for_rounding`
(`daily_rate_calculator.py` lines 163-166): Python `max` returns the first
of several maximal elements. -/
def argmaxTotalIdx : List MSExpenseItemEntry → ℕ
  | [] => 0
  | e :: es =>
      match es.get? (argmaxTotalIdx es) with
      | none => 0
      | some m =>
          if e.total_amount < m.total_amount then argmaxTotalIdx es + 1 else 0

/-- `DailyRateCalculator.adjust_for_rounding`
(`daily_rate_calculator.py` lines 129-192).  The `none` branch of the inner
match is unreachable for non-empty input (the argmax index is in range). -/
def adjust_for_rounding (entries : List MSExpenseItemEntry)
    (target_total : ℚ) : List MSExpenseItemEntry :=
  if entries.isEmpty then entries
  else
    let current_total := (entries.map (fun e => e.total_amount)).sum
    let difference := target_total - current_total
    if |difference| ≤ 1 / 100 then entries
    else
      match entries.get? (argmaxTotalIdx entries) with
      | none => entries
      | some largest =>
          let new_total := largest.total_amount + difference
          let new_daily_rate :=
            if 0 < largest.quantity then new_total / (largest.quantity : ℚ)
            else new_total
          entries.set (argmaxTotalIdx entries)
            { subcategory := largest.subcategory,
              start_date := largest.start_date,
              daily_rate := new_daily_rate, quantity := largest.quantity,
              total_amount := new_total }

/-- `HotelValidator.validate_categorization`
(`hotel_validator.py` lines 85-141), returning `(is_valid, errors)`. -/
def validate_categorization (inv : HotelInvoiceDetails) :
    Bool × List String :=
  let uncategorized_items :=
    (inv.line_items.filter (fun it => it.user_category.isNone)).map
      (fun it => it.description)
  let ignored_total :=
    ((inv.line_items.filter isIgnored).map (fun it => it.amount)).sum
  let categorized_total :=
    ((inv.line_items.filter (fun it => (keepCat it).isSome)).map
      (fun it => it.amount)).sum
  let uncategorizedErrors : List String :=
    if uncategorized_items.isEmpty then []
    else
      ("Uncategorized items: " ++
          String.intercalate ", " (uncategorized_items.take 3)) ::
        (if 3 < uncategorized_items.length then
          ["... and " ++ toString (uncategorized_items.length - 3) ++
            " more items"]
        else [])
  let expected_total := categorized_total + ignored_total
  let reconcErrors : List String :=
    if 1 / 100 < |expected_total - inv.total_amount| then
      ["Categorized total (" ++ ratStr categorized_total ++
        ") plus ignored items (" ++ ratStr ignored_total ++
        ") does not match invoice total (" ++ ratStr inv.total_amount ++ ")"]
    else []
  let allIgnoreErrors : List String :=
    if categorized_total = 0 ∧ 0 < ignored_total then [allIgnoreMsg] else []
  let errors := uncategorizedErrors ++ reconcErrors ++ allIgnoreErrors
  (errors.isEmpty, errors)

/-- Return value of `HotelCategorizer.validate_categories`
(the dict built at `hotel_categorizer.py` lines 65-70). -/
structure CategoryValidationReport where
  validation_passed : Bool
  total_assigned : ℚ
  total_original : ℚ
  errors : List String
deriving DecidableEq

/-- `HotelCategorizer.validate_categories`
(`hotel_categorizer.py` lines 30-79). -/
def validate_categories (inv : HotelInvoiceDetails) :
    CategoryValidationReport :=
  let missingErrors :=
    (inv.line_items.filter (fun it => it.user_category.isNone)).map
      (fun it => "No category assigned for: " ++ it.description)
  let total_assigned :=
    ((inv.line_items.filter (fun it => (keepCat it).isSome)).map
      (fun it => it.amount)).sum
  let errors := missingErrors ++
    (if 1 / 100 < |total_assigned - inv.total_amount| then
      ["Total assigned (" ++ ratStr total_assigned ++
        ") does not match invoice total (" ++ ratStr inv.total_amount ++
        "). Difference: " ++ ratStr (|total_assigned - inv.total_amount|)]
    else [])
  { validation_passed := errors.isEmpty,
    total_assigned := total_assigned,
    total_original := inv.total_amount,
    errors := errors }

/-- `HotelValidator.create_itemization_result`
(`hotel_validator.py` lines 209-261). -/
def create_itemization_result (inv : HotelInvoiceDetails)
    (cats : List ConsolidatedCategory) : HotelItemizationResult :=
  let total_itemized := (cats.map (fun c => c.total_amount)).sum
  { invoice_details := inv,
    consolidated_categories := cats,
    total_itemized := total_itemized,
    total_original := inv.total_amount,
    validation_passed :=
      decide (|total_itemized - inv.total_amount| ≤ 1 / 100),
    number_of_nights := max 1 (inv.check_out_date - inv.check_in_date) }

/-- Keyword list for room-rate detection
(`hotel_categorizer.py` line 183). -/
def ROOM_TERMS : List String := ["room", "accommodation", "stay", "night"]

/-- Keyword list for tax detection (`hotel_categorizer.py` line 187). -/
def TAX_TERMS : List String := ["tax", "vat", "occupancy", "city tax"]

/-- Keyword list for deposit detection (`hotel_categorizer.py` line 191). -/
def DEPOSIT_TERMS : List String := ["deposit", "advance", "prepayment"]

/-- Keyword list for telephone detection
(`hotel_categorizer.py` line 195). -/
def PHONE_TERMS : List String := ["phone", "telephone", "call", "communication"]

/-- Keyword list for food-and-beverage detection
(`hotel_categorizer.py` line 199). -/
def MEAL_TERMS : List String :=
  ["room service", "restaurant", "bar", "food", "beverage", "meal"]

/-- Keyword list for laundry detection (`hotel_categorizer.py` line 203). -/
def LAUNDRY_TERMS : List String := ["laundry", "cleaning", "valet"]

/-- Whether `needle` is an initial segment of `hay` (character lists). -/
def charsHavePre : List Char → List Char → Bool
  | [], _ => true
  | _ :: _, [] => false
  | a :: as, b :: bs => a = b && charsHavePre as bs

/-- Python substring containment `needle in hay` on character lists. -/
def containsSub (needle : List Char) : List Char → Bool
  | [] => needle.isEmpty
  | c :: t => charsHavePre needle (c :: t) || containsSub needle t

/-- Characters of `description.lower()`. -/
def lowerData (s : String) : List Char := s.data.map Char.toLower

/-- Python `any(term in description_lower for term in terms)`. -/
def hasAnyTerm (descLower : List Char) (terms : List String) : Bool :=
  terms.any (fun t => containsSub t.data descLower)

/-- `HotelCategorizer.suggest_category_for_description`
(`hotel_categorizer.py` lines 167-207); the amount parameter is unused in
the source as well. -/
def suggest_category_for_description (description : String) (_amount : ℚ) :
    HotelCategoryEnum :=
  let dl := lowerData description
  if hasAnyTerm dl ROOM_TERMS then HotelCategoryEnum.DAILY_ROOM_RATE
  else if hasAnyTerm dl TAX_TERMS then HotelCategoryEnum.HOTEL_TAX
  else if hasAnyTerm dl DEPOSIT_TERMS then HotelCategoryEnum.HOTEL_DEPOSIT
  else if hasAnyTerm dl PHONE_TERMS then HotelCategoryEnum.HOTEL_TELEPHONE
  else if hasAnyTerm dl MEAL_TERMS then HotelCategoryEnum.ROOM_SERVICE_MEALS
  else if hasAnyTerm dl LAUNDRY_TERMS then HotelCategoryEnum.LAUNDRY
  else HotelCategoryEnum.INCIDENTALS

/-- Keys (categories) of a group association list, in insertion order. -/
def groupKeys (groups : List (HotelCategoryEnum × List HotelLineItem)) :
    List HotelCategoryEnum :=
  groups.map (fun g => g.1)

/-- Sum of the line-item amounts over all groups. -/
def groupsAmountSum
    (groups : List (HotelCategoryEnum × List HotelLineItem)) : ℚ :=
  (groups.map (fun g => (g.2.map (fun it => it.amount)).sum)).sum

theorem groupKeys_nil : groupKeys [] = [] := rfl

theorem groupKeys_cons (g : HotelCategoryEnum × List HotelLineItem)
    (rest : List (HotelCategoryEnum × List HotelLineItem)) :
    groupKeys (g :: rest) = g.1 :: groupKeys rest := rfl

theorem groupsAmountSum_nil : groupsAmountSum [] = 0 := rfl

theorem groupsAmountSum_cons (g : HotelCategoryEnum × List HotelLineItem)
    (rest : List (HotelCategoryEnum × List HotelLineItem)) :
    groupsAmountSum (g :: rest) =
      (g.2.map (fun it => it.amount)).sum + groupsAmountSum rest := by
  simp [groupsAmountSum]

theorem insertGrouped_nil (c : HotelCategoryEnum) (it : HotelLineItem) :
    insertGrouped [] c it = [(c, [it])] := rfl

theorem insertGrouped_cons_eq (c0 : HotelCategoryEnum)
    (l : List HotelLineItem) (rest : List (HotelCategoryEnum × List HotelLineItem))
    (it : HotelLineItem) :
    insertGrouped ((c0, l) :: rest) c0 it = (c0, l ++ [it]) :: rest := by
  simp [insertGrouped]

theorem insertGrouped_cons_ne (c0 : HotelCategoryEnum)
    (l : List HotelLineItem) (rest : List (HotelCategoryEnum × List HotelLineItem))
    (c : HotelCategoryEnum) (it : HotelLineItem) (h : c0 ≠ c) :
    insertGrouped ((c0, l) :: rest) c it =
      (c0, l) :: insertGrouped rest c it := by
  simp [insertGrouped, h]

theorem groupFind_cons (c0 : HotelCategoryEnum) (l : List HotelLineItem)
    (rest : List (HotelCategoryEnum × List HotelLineItem))
    (c : HotelCategoryEnum) :
    groupFind ((c0, l) :: rest) c = if c0 = c then l else groupFind rest c :=
  rfl

theorem groupFind_insertGrouped :
    ∀ (groups : List (HotelCategoryEnum × List HotelLineItem))
      (c c' : HotelCategoryEnum) (it : HotelLineItem),
      groupFind (insertGrouped groups c it) c' =
        if c' = c then groupFind groups c' ++ [it] else groupFind groups c'
  | [], c, c', it => by
      rcases eq_or_ne c' c with h | h
      · subst h
        simp [insertGrouped_nil, groupFind_cons, groupFind]
      · simp [insertGrouped_nil, groupFind_cons, groupFind, h, Ne.symm h]
  | (c0, l) :: rest, c, c', it => by
      rcases eq_or_ne c0 c with h0 | h0
      · subst h0
        rw [insertGrouped_cons_eq, groupFind_cons, groupFind_cons]
        rcases eq_or_ne c0 c' with h1 | h1
        · subst h1; simp
        · simp [h1, Ne.symm h1]
      · rw [insertGrouped_cons_ne _ _ _ _ _ h0, groupFind_cons, groupFind_cons,
          groupFind_insertGrouped rest c c' it]
        rcases eq_or_ne c0 c' with h1 | h1
        · subst h1; simp [h0]
        · simp [h1]

theorem mem_groupKeys_insertGrouped :
    ∀ (groups : List (HotelCategoryEnum × List HotelLineItem))
      (c : HotelCategoryEnum) (it : HotelLineItem)
      (c' : HotelCategoryEnum),
      c' ∈ groupKeys (insertGrouped groups c it) ↔
        c' ∈ groupKeys groups ∨ c' = c
  | [], c, it, c' => by
      simp [insertGrouped_nil, groupKeys_cons, groupKeys_nil]
  | (c0, l) :: rest, c, it, c' => by
      rcases eq_or_ne c0 c with h0 | h0
      · subst h0
        rw [insertGrouped_cons_eq, groupKeys_cons, groupKeys_cons]
        simp only [List.mem_cons]
        tauto
      · rw [insertGrouped_cons_ne _ _ _ _ _ h0, groupKeys_cons, groupKeys_cons]
        simp only [List.mem_cons, mem_groupKeys_insertGrouped rest c it c']
        tauto

theorem nodup_groupKeys_insertGrouped :
    ∀ (groups : List (HotelCategoryEnum × List HotelLineItem))
      (c : HotelCategoryEnum) (it : HotelLineItem),
      (groupKeys groups).Nodup →
      (groupKeys (insertGrouped groups c it)).Nodup
  | [], c, it, _ => by
      rw [insertGrouped_nil, groupKeys_cons, groupKeys_nil]
      exact List.nodup_singleton c
  | (c0, l) :: rest, c, it, h => by
      rw [groupKeys_cons] at h
      have h1 : c0 ∉ groupKeys rest := (List.nodup_cons.mp h).1
      have h2 : (groupKeys rest).Nodup := (List.nodup_cons.mp h).2
      rcases eq_or_ne c0 c with h0 | h0
      · subst h0
        rw [insertGrouped_cons_eq, groupKeys_cons]
        exact List.nodup_cons.mpr ⟨h1, h2⟩
      · rw [insertGrouped_cons_ne _ _ _ _ _ h0, groupKeys_cons]
        refine List.nodup_cons.mpr ⟨?_, nodup_groupKeys_insertGrouped rest c it h2⟩
        rw [mem_groupKeys_insertGrouped]
        rintro (hc | hc)
        · exact h1 hc
        · exact h0 hc

theorem groupsAmountSum_insertGrouped :
    ∀ (groups : List (HotelCategoryEnum × List HotelLineItem))
      (c : HotelCategoryEnum) (it : HotelLineItem),
      groupsAmountSum (insertGrouped groups c it) =
        groupsAmountSum groups + it.amount
  | [], c, it => by
      rw [insertGrouped_nil, groupsAmountSum_cons, groupsAmountSum_nil]
      simp
  | (c0, l) :: rest, c, it => by
      rcases eq_or_ne c0 c with h0 | h0
      · subst h0
        rw [insertGrouped_cons_eq, groupsAmountSum_cons, groupsAmountSum_cons]
        simp only [List.map_append, List.sum_append, List.map_cons,
          List.map_nil, List.sum_cons, List.sum_nil]
        ring
      · rw [insertGrouped_cons_ne _ _ _ _ _ h0, groupsAmountSum_cons,
          groupsAmountSum_cons, groupsAmountSum_insertGrouped rest c it]
        ring

theorem groupFind_foldl :
    ∀ (items : List HotelLineItem)
      (groups : List (HotelCategoryEnum × List HotelLineItem))
      (c : HotelCategoryEnum),
      groupFind (items.foldl groupStep groups) c =
        groupFind groups c ++ items.filter (fun it => keepCat it = some c)
  | [], groups, c => by simp
  | it :: rest, groups, c => by
      rw [List.foldl_cons, groupFind_foldl rest]
      unfold groupStep
      cases hk : keepCat it with
      | none => simp [List.filter_cons, hk]
      | some c0 =>
          rw [groupFind_insertGrouped]
          rcases eq_or_ne c c0 with h | h
          · subst h; simp [List.filter_cons, hk]
          · simp [List.filter_cons, hk, h, Ne.symm h]

theorem mem_groupKeys_foldl :
    ∀ (items : List HotelLineItem)
      (groups : List (HotelCategoryEnum × List HotelLineItem))
      (c : HotelCategoryEnum),
      c ∈ groupKeys (items.foldl groupStep groups) ↔
        c ∈ groupKeys groups ∨ ∃ it ∈ items, keepCat it = some c
  | [], groups, c => by simp
  | it :: rest, groups, c => by
      rw [List.foldl_cons, mem_groupKeys_foldl rest]
      unfold groupStep
      cases hk : keepCat it with
      | none =>
          simp only [List.mem_cons]
          constructor
          · rintro (h | ⟨x, hx, hkx⟩)
            · exact Or.inl h
            · exact Or.inr ⟨x, Or.inr hx, hkx⟩
          · rintro (h | ⟨x, hx0 | hx, hkx⟩)
            · exact Or.inl h
            · subst hx0; rw [hk] at hkx; cases hkx
            · exact Or.inr ⟨x, hx, hkx⟩
      | some c0 =>
          rw [mem_groupKeys_insertGrouped]
          simp only [List.mem_cons]
          constructor
          · rintro ((h | h) | ⟨x, hx, hkx⟩)
            · exact Or.inl h
            · exact Or.inr ⟨it, Or.inl rfl, by rw [hk, h]⟩
            · exact Or.inr ⟨x, Or.inr hx, hkx⟩
          · rintro (h | ⟨x, hx0 | hx, hkx⟩)
            · exact Or.inl (Or.inl h)
            · subst hx0; rw [hk] at hkx
              exact Or.inl (Or.inr (Option.some_inj.mp hkx).symm)
            · exact Or.inr ⟨x, hx, hkx⟩

theorem nodup_groupKeys_foldl :
    ∀ (items : List HotelLineItem)
      (groups : List (HotelCategoryEnum × List HotelLineItem)),
      (groupKeys groups).Nodup →
      (groupKeys (items.foldl groupStep groups)).Nodup
  | [], _, h => h
  | it :: rest, groups, h => by
      rw [List.foldl_cons]
      apply nodup_groupKeys_foldl rest
      unfold groupStep
      cases keepCat it with
      | none => exact h
      | some c0 => exact nodup_groupKeys_insertGrouped groups c0 it h

theorem groupsAmountSum_foldl :
    ∀ (items : List HotelLineItem)
      (groups : List (HotelCategoryEnum × List HotelLineItem)),
      groupsAmountSum (items.foldl groupStep groups) =
        groupsAmountSum groups +
          ((items.filter (fun it => (keepCat it).isSome)).map
            (fun it => it.amount)).sum
  | [], groups => by simp
  | it :: rest, groups => by
      rw [List.foldl_cons, groupsAmountSum_foldl rest]
      unfold groupStep
      cases hk : keepCat it with
      | none => simp [List.filter_cons, hk]
      | some c0 =>
          rw [groupsAmountSum_insertGrouped]
          simp [List.filter_cons, hk]
          ring

theorem mem_groupKeys_of_mem
    (groups : List (HotelCategoryEnum × List HotelLineItem))
    (c : HotelCategoryEnum) (l : List HotelLineItem)
    (h : (c, l) ∈ groups) : c ∈ groupKeys groups :=
  List.mem_map_of_mem (fun g => g.1) h

theorem mem_groups_iff :
    ∀ (groups : List (HotelCategoryEnum × List HotelLineItem)),
      (groupKeys groups).Nodup →
      ∀ (c : HotelCategoryEnum) (l : List HotelLineItem),
      ((c, l) ∈ groups ↔ c ∈ groupKeys groups ∧ l = groupFind groups c)
  | [], _, c, l => by simp [groupKeys_nil, groupFind]
  | (c0, l0) :: rest, h, c, l => by
      rw [groupKeys_cons] at h
      have h1 : c0 ∉ groupKeys rest := (List.nodup_cons.mp h).1
      have h2 : (groupKeys rest).Nodup := (List.nodup_cons.mp h).2
      rw [groupKeys_cons, groupFind_cons]
      rcases eq_or_ne c c0 with hc | hc
      · subst hc
        rw [if_pos rfl]
        constructor
        · intro hmem
          rcases List.mem_cons.mp hmem with heq | hmem2
          · exact ⟨List.mem_cons_self _ _, congrArg Prod.snd heq⟩
          · exact absurd (mem_groupKeys_of_mem rest c l hmem2) h1
        · rintro ⟨-, hl⟩
          exact List.mem_cons.mpr (Or.inl (by rw [hl]))
      · rw [if_neg (Ne.symm hc)]
        simp only [List.mem_cons, Prod.mk.injEq]
        rw [mem_groups_iff rest h2 c l]
        constructor
        · rintro (⟨hcc, -⟩ | hmem)
          · exact absurd hcc hc
          · exact ⟨Or.inr hmem.1, hmem.2⟩
        · rintro ⟨hc0 | hmem, hl⟩
          · exact absurd hc0 hc
          · exact Or.inr ⟨hmem, hl⟩

theorem groupFind_groupLineItems (items : List HotelLineItem)
    (c : HotelCategoryEnum) :
    groupFind (groupLineItems items) c =
      items.filter (fun it => keepCat it = some c) := by
  unfold groupLineItems
  rw [groupFind_foldl]
  simp [groupFind]

theorem mem_groupKeys_groupLineItems (items : List HotelLineItem)
    (c : HotelCategoryEnum) :
    c ∈ groupKeys (groupLineItems items) ↔
      ∃ it ∈ items, keepCat it = some c := by
  unfold groupLineItems
  rw [mem_groupKeys_foldl]
  simp [groupKeys]

theorem nodup_groupKeys_groupLineItems (items : List HotelLineItem) :
    (groupKeys (groupLineItems items)).Nodup := by
  unfold groupLineItems
  exact nodup_groupKeys_foldl items [] (by simp [groupKeys])

theorem groupsAmountSum_groupLineItems (items : List HotelLineItem) :
    groupsAmountSum (groupLineItems items) =
      ((items.filter (fun it => (keepCat it).isSome)).map
        (fun it => it.amount)).sum := by
  unfold groupLineItems
  rw [groupsAmountSum_foldl]
  simp [groupsAmountSum]

theorem mem_groupLineItems_iff (items : List HotelLineItem)
    (c : HotelCategoryEnum) (l : List HotelLineItem) :
    (c, l) ∈ groupLineItems items ↔
      (∃ it ∈ items, keepCat it = some c) ∧
        l = items.filter (fun it => keepCat it = some c) := by
  rw [mem_groups_iff (groupLineItems items)
      (nodup_groupKeys_groupLineItems items) c l,
    mem_groupKeys_groupLineItems, groupFind_groupLineItems]

theorem mkConsolidated_category (n : ℤ)
    (g : HotelCategoryEnum × List HotelLineItem) :
    (mkConsolidated n g).category = g.1 := by
  by_cases h : g.1.value ∈ DAILY_RATE_CATEGORIES <;> simp [mkConsolidated, h]

theorem mkConsolidated_total (n : ℤ)
    (g : HotelCategoryEnum × List HotelLineItem) :
    (mkConsolidated n g).total_amount = (g.2.map (fun it => it.amount)).sum := by
  by_cases h : g.1.value ∈ DAILY_RATE_CATEGORIES <;> simp [mkConsolidated, h]

theorem mkConsolidated_source (n : ℤ)
    (g : HotelCategoryEnum × List HotelLineItem) :
    (mkConsolidated n g).source_items = g.2 := by
  by_cases h : g.1.value ∈ DAILY_RATE_CATEGORIES <;> simp [mkConsolidated, h]

theorem mkConsolidated_quantity (n : ℤ)
    (g : HotelCategoryEnum × List HotelLineItem) :
    (mkConsolidated n g).quantity =
      if g.1.value ∈ DAILY_RATE_CATEGORIES then n else 1 := by
  by_cases h : g.1.value ∈ DAILY_RATE_CATEGORIES <;> simp [mkConsolidated, h]

theorem mkConsolidated_daily_rate (n : ℤ)
    (g : HotelCategoryEnum × List HotelLineItem) :
    (mkConsolidated n g).daily_rate =
      if g.1.value ∈ DAILY_RATE_CATEGORIES then
        (g.2.map (fun it => it.amount)).sum / (n : ℚ)
      else (g.2.map (fun it => it.amount)).sum := by
  by_cases h : g.1.value ∈ DAILY_RATE_CATEGORIES <;> simp [mkConsolidated, h]

theorem consolidate_mem_iff (inv : HotelInvoiceDetails)
    (cc : ConsolidatedCategory) :
    cc ∈ consolidate_categories inv ↔
      ∃ c, (∃ it ∈ inv.line_items, keepCat it = some c) ∧
        cc = mkConsolidated (consolidateNights inv)
          (c, inv.line_items.filter (fun it => keepCat it = some c)) := by
  unfold consolidate_categories
  rw [List.mem_map]
  constructor
  · rintro ⟨⟨c, l⟩, hmem, rfl⟩
    rw [mem_groupLineItems_iff] at hmem
    exact ⟨c, hmem.1, by rw [hmem.2]⟩
  · rintro ⟨c, hocc, rfl⟩
    refine ⟨(c, inv.line_items.filter (fun it => keepCat it = some c)), ?_, rfl⟩
    rw [mem_groupLineItems_iff]
    exact ⟨hocc, rfl⟩

theorem consolidate_total_sum (inv : HotelInvoiceDetails) :
    ((consolidate_categories inv).map (fun cc => cc.total_amount)).sum =
      ((inv.line_items.filter (fun it => (keepCat it).isSome)).map
        (fun it => it.amount)).sum := by
  unfold consolidate_categories
  rw [List.map_map]
  have hmaps : ((groupLineItems inv.line_items).map
      ((fun cc => cc.total_amount) ∘ mkConsolidated (consolidateNights inv))) =
      (groupLineItems inv.line_items).map
        (fun g => (g.2.map (fun it => it.amount)).sum) :=
    List.map_congr_left (fun g _ => mkConsolidated_total _ g)
  rw [hmaps]
  exact groupsAmountSum_groupLineItems inv.line_items

theorem consolidate_map_category (inv : HotelInvoiceDetails) :
    (consolidate_categories inv).map (fun cc => cc.category) =
      groupKeys (groupLineItems inv.line_items) := by
  unfold consolidate_categories groupKeys
  rw [List.map_map]
  exact List.map_congr_left (fun g _ => mkConsolidated_category _ g)

theorem argmaxTotalIdx_lt_length :
    ∀ (entries : List MSExpenseItemEntry), entries ≠ [] →
      argmaxTotalIdx entries < entries.length
  | [], h => absurd rfl h
  | e :: es, _ => by
      unfold argmaxTotalIdx
      cases hg : es.get? (argmaxTotalIdx es) with
      | none => simp
      | some m =>
          have hlt : argmaxTotalIdx es < es.length := by
            by_contra hge
            rw [List.get?_eq_none.mpr (Nat.le_of_not_lt hge)] at hg
            cases hg
          by_cases hcmp : e.total_amount < m.total_amount
          · simp only [hcmp, if_true, List.length_cons]
            exact Nat.succ_lt_succ hlt
          · simp [hcmp]

theorem argmaxTotalIdx_spec :
    ∀ (entries : List MSExpenseItemEntry) (m : MSExpenseItemEntry),
      entries.get? (argmaxTotalIdx entries) = some m →
      (∀ j e, entries.get? j = some e → e.total_amount ≤ m.total_amount) ∧
      (∀ j e, j < argmaxTotalIdx entries → entries.get? j = some e →
        e.total_amount < m.total_amount)
  | [], m, h => by cases h
  | e0 :: es, m, h => by
      cases hg : es.get? (argmaxTotalIdx es) with
      | none =>
          have hnil : es = [] := by
            by_contra hne
            have hlt := argmaxTotalIdx_lt_length es hne
            have hge := List.get?_eq_none.mp hg
            omega
          subst hnil
          have hidx : argmaxTotalIdx [e0] = 0 := rfl
          rw [hidx, List.get?_cons_zero] at h
          have hm : m = e0 := (Option.some_inj.mp h).symm
          subst hm
          constructor
          · intro j e hj
            cases j with
            | zero =>
                rw [List.get?_cons_zero] at hj
                rw [Option.some_inj.mp hj]
            | succ n =>
                rw [List.get?_cons_succ] at hj
                cases hj
          · intro j e hjlt
            rw [hidx] at hjlt
            exact absurd hjlt (Nat.not_lt_zero j)
      | some m0 =>
          obtain ⟨hle, hstrict⟩ := argmaxTotalIdx_spec es m0 hg
          by_cases hcmp : e0.total_amount < m0.total_amount
          · have hidx : argmaxTotalIdx (e0 :: es) = argmaxTotalIdx es + 1 := by
              simp only [argmaxTotalIdx]
              rw [hg]
              simp [hcmp]
            rw [hidx, List.get?_cons_succ] at h
            have hm : m0 = m := Option.some_inj.mp (hg.symm.trans h)
            subst hm
            constructor
            · intro j e hj
              cases j with
              | zero =>
                  rw [List.get?_cons_zero] at hj
                  have he := Option.some_inj.mp hj
                  subst he
                  exact le_of_lt hcmp
              | succ n =>
                  rw [List.get?_cons_succ] at hj
                  exact hle n e hj
            · intro j e hjlt hj
              rw [hidx] at hjlt
              cases j with
              | zero =>
                  rw [List.get?_cons_zero] at hj
                  have he := Option.some_inj.mp hj
                  subst he
                  exact hcmp
              | succ n =>
                  rw [List.get?_cons_succ] at hj
                  exact hstrict n e (Nat.lt_of_succ_lt_succ hjlt) hj
          · have hidx : argmaxTotalIdx (e0 :: es) = 0 := by
              simp only [argmaxTotalIdx]
              rw [hg]
              simp [hcmp]
            rw [hidx, List.get?_cons_zero] at h
            have hm : e0 = m := Option.some_inj.mp h
            subst hm
            constructor
            · intro j e hj
              cases j with
              | zero =>
                  rw [List.get?_cons_zero] at hj
                  have he := Option.some_inj.mp hj
                  subst he
                  exact le_refl _
              | succ n =>
                  rw [List.get?_cons_succ] at hj
                  exact le_trans (hle n e hj) (le_of_not_lt hcmp)
            · intro j e hjlt
              rw [hidx] at hjlt
              exact absurd hjlt (Nat.not_lt_zero j)

/-- Sum of the `total_amount` fields of a list of itemization entries. -/
def sumTotals (l : List MSExpenseItemEntry) : ℚ :=
  (l.map (fun e => e.total_amount)).sum

theorem adjust_for_rounding_small (entries : List MSExpenseItemEntry)
    (target : ℚ) (hd : |target - sumTotals entries| ≤ 1 / 100) :
    adjust_for_rounding entries target = entries := by
  unfold sumTotals at hd
  simp only [adjust_for_rounding]
  by_cases he : entries.isEmpty
  · simp [he]
  · rw [if_neg he, if_pos hd]

theorem adjust_for_rounding_big (entries : List MSExpenseItemEntry)
    (target : ℚ) (hne : entries ≠ [])
    (hd : 1 / 100 < |target - sumTotals entries|) :
    ∃ largest, entries.get? (argmaxTotalIdx entries) = some largest ∧
      adjust_for_rounding entries target =
        entries.set (argmaxTotalIdx entries)
          { subcategory := largest.subcategory,
            start_date := largest.start_date,
            daily_rate :=
              if 0 < largest.quantity then
                (largest.total_amount + (target - sumTotals entries)) /
                  (largest.quantity : ℚ)
              else largest.total_amount + (target - sumTotals entries),
            quantity := largest.quantity,
            total_amount :=
              largest.total_amount + (target - sumTotals entries) } := by
  have hlt := argmaxTotalIdx_lt_length entries hne
  obtain ⟨largest, hl⟩ : ∃ l, entries.get? (argmaxTotalIdx entries) = some l := by
    cases hq : entries.get? (argmaxTotalIdx entries) with
    | none =>
        have hge := List.get?_eq_none.mp hq
        omega
    | some l => exact ⟨l, rfl⟩
  refine ⟨largest, hl, ?_⟩
  have hie : entries.isEmpty = false := by
    cases entries with
    | nil => exact absurd rfl hne
    | cons a t => rfl
  unfold sumTotals at hd
  simp only [adjust_for_rounding, hie, Bool.false_eq_true, if_false]
  rw [if_neg (not_le.mpr hd), hl]
  rfl

theorem sumTotals_set :
    ∀ (entries : List MSExpenseItemEntry) (k : ℕ)
      (old e : MSExpenseItemEntry), entries.get? k = some old →
      sumTotals (entries.set k e) =
        sumTotals entries - old.total_amount + e.total_amount
  | [], k, old, e, hk => by cases hk
  | a :: t, 0, old, e, hk => by
      rw [List.get?_cons_zero] at hk
      have ha := Option.some_inj.mp hk
      subst ha
      unfold sumTotals
      simp only [List.set_cons_zero, List.map_cons, List.sum_cons]
      ring
  | a :: t, k + 1, old, e, hk => by
      rw [List.get?_cons_succ] at hk
      unfold sumTotals
      simp only [List.set_cons_succ, List.map_cons, List.sum_cons]
      have ih := sumTotals_set t k old e hk
      unfold sumTotals at ih
      rw [ih]
      ring

/-- C1: for every non-empty entry list, `adjust_for_rounding` returns entries
whose `total_amount` values sum to within 0.01 of `target_total`, and when the
input sum differs from `target_total` by more than 0.01 the output sum equals
`target_total` exactly. -/
theorem adjust_for_rounding_reconciles (entries : List MSExpenseItemEntry)
    (target_total : ℚ) (hne : entries ≠ []) :
    |sumTotals (adjust_for_rounding entries target_total) - target_total| ≤
        1 / 100 ∧
      (1 / 100 < |sumTotals entries - target_total| →
        sumTotals (adjust_for_rounding entries target_total) = target_total) := by
  by_cases hd : |target_total - sumTotals entries| ≤ 1 / 100
  · rw [adjust_for_rounding_small entries target_total hd]
    constructor
    · rwa [abs_sub_comm] at hd
    · intro hgt
      rw [abs_sub_comm] at hgt
      exact absurd hd (not_le.mpr hgt)
  · push_neg at hd
    obtain ⟨largest, hl, heq⟩ :=
      adjust_for_rounding_big entries target_total hne hd
    have hsum : sumTotals (adjust_for_rounding entries target_total) =
        target_total := by
      rw [heq, sumTotals_set entries (argmaxTotalIdx entries) largest _ hl]
      ring
    refine ⟨?_, fun _ => hsum⟩
    rw [hsum]
    simp

theorem validate_categorization_fst (inv : HotelInvoiceDetails) :
    (validate_categorization inv).1 = (validate_categorization inv).2.isEmpty :=
  rfl

theorem validate_categories_passed (inv : HotelInvoiceDetails) :
    (validate_categories inv).validation_passed =
      (validate_categories inv).errors.isEmpty :=
  rfl

/-- Concrete entry list for the C1 witness: one 2-night room entry whose total
differs from the target by more than one cent. -/
def c1WitnessEntries : List MSExpenseItemEntry :=
  [{ subcategory := HotelCategoryEnum.DAILY_ROOM_RATE, start_date := 0,
     daily_rate := 100, quantity := 2, total_amount := 200 }]

/-- Witness for C1 at a concrete non-empty entry list and target 250. -/
theorem adjust_for_rounding_reconciles_witness :
    c1WitnessEntries ≠ [] ∧
      (|sumTotals (adjust_for_rounding c1WitnessEntries 250) - 250| ≤ 1 / 100 ∧
        (1 / 100 < |sumTotals c1WitnessEntries - 250| →
          sumTotals (adjust_for_rounding c1WitnessEntries 250) = 250)) :=
  ⟨by simp [c1WitnessEntries],
   adjust_for_rounding_reconciles c1WitnessEntries 250
     (by simp [c1WitnessEntries])⟩

/-- C8: the computed number of nights equals `max 1 (check_out - check_in)`,
is never below 1, clamps to 1 for same-day or inverted date ranges, and for
such ranges consolidation gives every recurring category quantity 1. -/
theorem nights_clamped (check_in check_out : ℤ) (inv : HotelInvoiceDetails) :
    calculate_nights check_in check_out = max 1 (check_out - check_in) ∧
      1 ≤ calculate_nights check_in check_out ∧
      (check_out ≤ check_in → calculate_nights check_in check_out = 1) ∧
      (inv.check_out_date ≤ inv.check_in_date →
        ∀ cc ∈ consolidate_categories inv,
          cc.category.value ∈ DAILY_RATE_CATEGORIES → cc.quantity = 1) := by
  refine ⟨rfl, le_max_left _ _, ?_, ?_⟩
  · intro hle
    unfold calculate_nights
    omega
  · intro hle cc hmem hdaily
    rw [consolidate_mem_iff] at hmem
    obtain ⟨c, hocc, hcc⟩ := hmem
    subst hcc
    rw [mkConsolidated_category] at hdaily
    rw [mkConsolidated_quantity, if_pos hdaily]
    simp only [consolidateNights]
    rw [if_pos (by omega : inv.check_out_date - inv.check_in_date ≤ 0)]

/-- Concrete same-day invoice for the C8 witness. -/
def c8Invoice : HotelInvoiceDetails :=
  { hotel_name := "H", check_in_date := 7, check_out_date := 7,
    total_amount := 100,
    line_items := [{ description := "Room", amount := 100,
                     user_category := some HotelCategoryEnum.DAILY_ROOM_RATE }] }

/-- Witness for C8 at a same-day stay. -/
theorem nights_clamped_witness :
    calculate_nights 7 7 = 1 ∧
      ∀ cc ∈ consolidate_categories c8Invoice,
        cc.category.value ∈ DAILY_RATE_CATEGORIES → cc.quantity = 1 :=
  ⟨(nights_clamped 7 7 c8Invoice).2.2.1 (le_refl 7),
   (nights_clamped 7 7 c8Invoice).2.2.2 (le_refl 7)⟩

/-- Concrete entry list for the C3 counterexample: a single entry whose
quantity is not positive. -/
def c3Entries : List MSExpenseItemEntry :=
  [{ subcategory := HotelCategoryEnum.INCIDENTALS, start_date := 0,
     daily_rate := 10, quantity := -2, total_amount := 10 }]

/-- C3 counterexample: the claim says the replaced entry's daily_rate becomes
new_total / quantity, but on an entry with non-positive quantity the code sets
daily_rate to new_total itself (20), not new_total / quantity (-10). -/
theorem c3_counterexample :
    1 / 100 < |sumTotals c3Entries - 20| ∧
      (adjust_for_rounding c3Entries 20).map (fun e => e.daily_rate) = [20] ∧
      (20 : ℚ) ≠ (10 + 10) / ((-2 : ℤ) : ℚ) := by
  refine ⟨by norm_num [sumTotals, c3Entries], ?_, by norm_num⟩
  have hd : 1 / 100 < |(20 : ℚ) - sumTotals c3Entries| := by
    norm_num [sumTotals, c3Entries]
  obtain ⟨largest, hl, heq⟩ :=
    adjust_for_rounding_big c3Entries 20 (by simp [c3Entries]) hd
  have hidx : argmaxTotalIdx c3Entries = 0 := rfl
  rw [hidx] at hl heq
  have hlargest : largest = c3Entries.get ⟨0, by simp [c3Entries]⟩ := by
    have h0 : c3Entries.get? 0 = some (c3Entries.get ⟨0, by simp [c3Entries]⟩) :=
      rfl
    exact (Option.some_inj.mp (h0.symm.trans hl)).symm
  subst hlargest
  rw [heq]
  norm_num [c3Entries, sumTotals, List.set]

/-- The frame property of `adjust_for_rounding` as the code implements it:
exactly the first largest entry is replaced, its new total is the old total
plus the difference, and its new daily rate is the new total divided by its
quantity when the quantity is positive (otherwise the new total itself). -/
def AdjustFrameSpec (entries : List MSExpenseItemEntry)
    (target_total : ℚ) : Prop :=
  (adjust_for_rounding entries target_total).length = entries.length ∧
  (∀ j, j ≠ argmaxTotalIdx entries →
    (adjust_for_rounding entries target_total).get? j = entries.get? j) ∧
  ∃ old new0, entries.get? (argmaxTotalIdx entries) = some old ∧
    (adjust_for_rounding entries target_total).get? (argmaxTotalIdx entries) =
      some new0 ∧
    new0.total_amount = old.total_amount + (target_total - sumTotals entries) ∧
    new0.daily_rate = (if 0 < old.quantity then
      new0.total_amount / (old.quantity : ℚ) else new0.total_amount) ∧
    new0.subcategory = old.subcategory ∧
    new0.start_date = old.start_date ∧
    new0.quantity = old.quantity ∧
    (∀ j e, entries.get? j = some e →
      e.total_amount ≤ old.total_amount) ∧
    (∀ j e, j < argmaxTotalIdx entries → entries.get? j = some e →
      e.total_amount < old.total_amount)

/-- C3 (amended): on a non-empty list whose sum differs from the target by
more than 0.01, exactly the first entry of largest total is replaced; its new
daily rate is new_total / quantity only when quantity is positive, and
new_total itself otherwise. -/
theorem adjust_for_rounding_frame (entries : List MSExpenseItemEntry)
    (target_total : ℚ) (hne : entries ≠ [])
    (hd : 1 / 100 < |sumTotals entries - target_total|) :
    AdjustFrameSpec entries target_total := by
  rw [abs_sub_comm] at hd
  obtain ⟨largest, hl, heq⟩ :=
    adjust_for_rounding_big entries target_total hne hd
  obtain ⟨hle, hstrict⟩ := argmaxTotalIdx_spec entries largest hl
  have hk : argmaxTotalIdx entries < entries.length :=
    argmaxTotalIdx_lt_length entries hne
  have hset : (adjust_for_rounding entries target_total).get?
      (argmaxTotalIdx entries) =
      some { subcategory := largest.subcategory,
             start_date := largest.start_date,
             daily_rate := if 0 < largest.quantity then
                 (largest.total_amount + (target_total - sumTotals entries)) /
                   (largest.quantity : ℚ)
               else largest.total_amount + (target_total - sumTotals entries),
             quantity := largest.quantity,
             total_amount :=
               largest.total_amount + (target_total - sumTotals entries) } := by
    rw [heq, List.get?_eq_getElem?, List.getElem?_set_self hk]
  unfold AdjustFrameSpec
  refine ⟨by rw [heq, List.length_set], ?_, largest, _, hl, hset, rfl, rfl,
    rfl, rfl, rfl, hle, hstrict⟩
  intro j hj
  rw [heq, List.get?_eq_getElem?, List.get?_eq_getElem?,
    List.getElem?_set_ne (Ne.symm hj)]

/-- Concrete entry list for the C3 amended witness. -/
def c3WitnessEntries : List MSExpenseItemEntry :=
  [{ subcategory := HotelCategoryEnum.DAILY_ROOM_RATE, start_date := 0,
     daily_rate := 100, quantity := 2, total_amount := 200 },
   { subcategory := HotelCategoryEnum.HOTEL_TAX, start_date := 0,
     daily_rate := 20, quantity := 1, total_amount := 20 }]

/-- Witness for the amended C3 at a concrete list and target 220.02. -/
theorem adjust_for_rounding_frame_witness :
    c3WitnessEntries ≠ [] ∧ AdjustFrameSpec c3WitnessEntries (11001 / 50) :=
  ⟨by simp [c3WitnessEntries],
   adjust_for_rounding_frame c3WitnessEntries (11001 / 50)
     (by simp [c3WitnessEntries])
     (by
       norm_num [sumTotals, c3WitnessEntries]
       rw [abs_of_pos (by norm_num : (0 : ℚ) < 1 / 50)]
       norm_num)⟩

/-- C4: a line item categorized Ignore never appears in any consolidated
category's source_items; every consolidated total sums only the non-Ignore
items of its category; and calculate_daily_rates never emits an entry whose
subcategory is Ignore. -/
theorem ignore_excluded (inv : HotelInvoiceDetails)
    (cats : List ConsolidatedCategory) (check_in check_out : ℤ) :
    (∀ cc ∈ consolidate_categories inv, ∀ it ∈ cc.source_items,
        it.user_category ≠ some HotelCategoryEnum.IGNORE) ∧
      (∀ cc ∈ consolidate_categories inv,
        cc.total_amount = ((inv.line_items.filter
          (fun it => keepCat it = some cc.category)).map
            (fun it => it.amount)).sum) ∧
      (∀ e ∈ calculate_daily_rates cats check_in check_out,
        e.subcategory ≠ HotelCategoryEnum.IGNORE) := by
  refine ⟨?_, ?_, ?_⟩
  · intro cc hmem it hit hcontra
    rw [consolidate_mem_iff] at hmem
    obtain ⟨c, hocc, hcc⟩ := hmem
    subst hcc
    rw [mkConsolidated_source] at hit
    have hk : keepCat it = some c := by
      have hp := (List.mem_filter.mp hit).2
      simpa using hp
    unfold keepCat at hk
    rw [hcontra] at hk
    simp at hk
  · intro cc hmem
    rw [consolidate_mem_iff] at hmem
    obtain ⟨c, hocc, hcc⟩ := hmem
    subst hcc
    rw [mkConsolidated_total, mkConsolidated_category]
  · intro e hmem
    unfold calculate_daily_rates at hmem
    rw [List.mem_map] at hmem
    obtain ⟨cc, hcc, he⟩ := hmem
    subst he
    have hp := (List.mem_filter.mp hcc).2
    simpa using hp

/-- Concrete invoice with one Ignore item, for the C4 witness. -/
def c4Invoice : HotelInvoiceDetails :=
  { hotel_name := "H", check_in_date := 0, check_out_date := 2,
    total_amount := 115,
    line_items :=
      [{ description := "Room", amount := 100,
         user_category := some HotelCategoryEnum.DAILY_ROOM_RATE },
       { description := "Junk", amount := 15,
         user_category := some HotelCategoryEnum.IGNORE }] }

/-- The single non-Ignore line item of `c4Invoice`. -/
def c4Item : HotelLineItem :=
  { description := "Room", amount := 100,
    user_category := some HotelCategoryEnum.DAILY_ROOM_RATE }

/-- The single consolidated category produced from `c4Invoice`. -/
def c4Cc : ConsolidatedCategory :=
  { category := HotelCategoryEnum.DAILY_ROOM_RATE, total_amount := 100,
    daily_rate := 50, quantity := 2, source_items := [c4Item] }

theorem c4_consolidate_eval : consolidate_categories c4Invoice = [c4Cc] := by
  norm_num +decide [consolidate_categories, c4Invoice, groupLineItems, groupStep,
    keepCat, insertGrouped, consolidateNights, mkConsolidated,
    HotelCategoryEnum.value, DAILY_RATE_CATEGORIES, c4Cc, c4Item]

/-- Witness for C4 at a concrete invoice. -/
theorem ignore_excluded_witness :
    c4Cc ∈ consolidate_categories c4Invoice ∧
      c4Item ∈ c4Cc.source_items ∧
      c4Item.user_category ≠ some HotelCategoryEnum.IGNORE :=
  ⟨by rw [c4_consolidate_eval]; exact List.mem_singleton.mpr rfl,
   by simp [c4Cc],
   (ignore_excluded c4Invoice [] 0 0).1 c4Cc
     (by rw [c4_consolidate_eval]; exact List.mem_singleton.mpr rfl)
     c4Item (by simp [c4Cc])⟩

/-- Concrete 2-night invoice from spec scenario 1 and the repository's own
integration-test fixture: room 200.00, Hotel Tax 20.00, total 220.00. -/
def c2Invoice : HotelInvoiceDetails :=
  { hotel_name := "Grand Plaza Hotel", check_in_date := 0, check_out_date := 2,
    total_amount := 220,
    line_items :=
      [{ description := "Room Rate", amount := 200,
         user_category := some HotelCategoryEnum.DAILY_ROOM_RATE },
       { description := "City Occupancy Tax", amount := 20,
         user_category := some HotelCategoryEnum.HOTEL_TAX }] }

/-- C2 (evaluation at the failing input): the code consolidates Hotel Tax as a
one-time category — daily_rate 20.00, quantity 1 — because config.py lists
"Hotel Tax" in ONE_TIME_CATEGORIES, so the claimed (and spec/test-expected)
daily_rate 10.00 with quantity 2 does not hold; the Daily Room Rate entry and
the 220.00 sum do match the claim. -/
theorem c2_hotel_tax_one_time :
    (consolidate_categories c2Invoice).map
        (fun cc => (cc.category, cc.daily_rate, cc.quantity, cc.total_amount)) =
      [(HotelCategoryEnum.DAILY_ROOM_RATE, 100, 2, 200),
       (HotelCategoryEnum.HOTEL_TAX, 20, 1, 20)] ∧
      ((consolidate_categories c2Invoice).map (fun cc => cc.total_amount)).sum =
        220 ∧
      ((20 : ℚ), (1 : ℤ)) ≠ ((10 : ℚ), (2 : ℤ)) := by
  refine ⟨?_, ?_, by norm_num [Prod.ext_iff]⟩
  · norm_num +decide [consolidate_categories, c2Invoice, groupLineItems, groupStep,
      keepCat, insertGrouped, consolidateNights, mkConsolidated,
      HotelCategoryEnum.value, DAILY_RATE_CATEGORIES]
  · norm_num +decide [consolidate_categories, c2Invoice, groupLineItems, groupStep,
      keepCat, insertGrouped, consolidateNights, mkConsolidated,
      HotelCategoryEnum.value, DAILY_RATE_CATEGORIES]

/-- Line items for the C5 counterexample. -/
def c5Item1 : HotelLineItem :=
  { description := "Room", amount := 200,
    user_category := some HotelCategoryEnum.DAILY_ROOM_RATE }

/-- Second line item for the C5 counterexample. -/
def c5Item2 : HotelLineItem :=
  { description := "Tax", amount := 20,
    user_category := some HotelCategoryEnum.HOTEL_TAX }

/-- Invoice with the two C5 items in one order. -/
def c5Invoice1 : HotelInvoiceDetails :=
  { hotel_name := "H", check_in_date := 0, check_out_date := 2,
    total_amount := 220, line_items := [c5Item1, c5Item2] }

/-- The same invoice with its line items permuted. -/
def c5Invoice2 : HotelInvoiceDetails :=
  { hotel_name := "H", check_in_date := 0, check_out_date := 2,
    total_amount := 220, line_items := [c5Item2, c5Item1] }

/-- C5 counterexample: permuting the line items of an invoice changes the
output order of consolidate_categories (Python dicts iterate in insertion
order), so the claimed identical output list does not hold. -/
theorem c5_counterexample :
    c5Invoice1.line_items.Perm c5Invoice2.line_items ∧
      consolidate_categories c5Invoice1 ≠ consolidate_categories c5Invoice2 := by
  constructor
  · exact List.Perm.swap c5Item2 c5Item1 []
  · intro hcontra
    have h1 : (consolidate_categories c5Invoice1).map (fun cc => cc.category) =
        [HotelCategoryEnum.DAILY_ROOM_RATE, HotelCategoryEnum.HOTEL_TAX] := by
      rw [consolidate_map_category]
      simp +decide [groupLineItems, groupStep, keepCat, insertGrouped,
        groupKeys, c5Invoice1, c5Item1, c5Item2]
    have h2 : (consolidate_categories c5Invoice2).map (fun cc => cc.category) =
        [HotelCategoryEnum.HOTEL_TAX, HotelCategoryEnum.DAILY_ROOM_RATE] := by
      rw [consolidate_map_category]
      simp +decide [groupLineItems, groupStep, keepCat, insertGrouped,
        groupKeys, c5Invoice2, c5Item1, c5Item2]
    rw [hcontra, h2] at h1
    simp at h1

/-- Projection of a consolidated category to its observable value tuple. -/
def ccTuple (cc : ConsolidatedCategory) :
    HotelCategoryEnum × ℚ × ℚ × ℤ :=
  (cc.category, cc.total_amount, cc.daily_rate, cc.quantity)

/-- The value tuple the consolidator assigns to category `c` of an invoice. -/
def tupleOf (inv : HotelInvoiceDetails) (c : HotelCategoryEnum) :
    HotelCategoryEnum × ℚ × ℚ × ℤ :=
  ccTuple (mkConsolidated (consolidateNights inv)
    (c, inv.line_items.filter (fun it => keepCat it = some c)))

theorem consolidate_tuples_nodup (inv : HotelInvoiceDetails) :
    ((consolidate_categories inv).map ccTuple).Nodup := by
  apply List.Nodup.of_map (fun t => t.1)
  rw [List.map_map]
  have h : ((fun (t : HotelCategoryEnum × ℚ × ℚ × ℤ) => t.1) ∘ ccTuple) =
      fun cc => cc.category := rfl
  rw [h, consolidate_map_category]
  exact nodup_groupKeys_groupLineItems inv.line_items

theorem consolidate_tuple_mem (inv : HotelInvoiceDetails)
    (t : HotelCategoryEnum × ℚ × ℚ × ℤ) :
    t ∈ (consolidate_categories inv).map ccTuple ↔
      ∃ c, (∃ it ∈ inv.line_items, keepCat it = some c) ∧ t = tupleOf inv c := by
  rw [List.mem_map]
  constructor
  · rintro ⟨cc, hcc, rfl⟩
    rw [consolidate_mem_iff] at hcc
    obtain ⟨c, hocc, rfl⟩ := hcc
    exact ⟨c, hocc, rfl⟩
  · rintro ⟨c, hocc, rfl⟩
    refine ⟨mkConsolidated (consolidateNights inv)
      (c, inv.line_items.filter (fun it => keepCat it = some c)), ?_, rfl⟩
    rw [consolidate_mem_iff]
    exact ⟨c, hocc, rfl⟩

theorem tupleOf_perm_eq (inv1 inv2 : HotelInvoiceDetails)
    (hperm : inv1.line_items.Perm inv2.line_items)
    (hn : consolidateNights inv1 = consolidateNights inv2)
    (c : HotelCategoryEnum) :
    tupleOf inv1 c = tupleOf inv2 c := by
  have hsum : ((inv1.line_items.filter (fun it => keepCat it = some c)).map
      (fun it => it.amount)).sum =
      ((inv2.line_items.filter (fun it => keepCat it = some c)).map
        (fun it => it.amount)).sum :=
    List.Perm.sum_eq (List.Perm.map _ (List.Perm.filter _ hperm))
  unfold tupleOf ccTuple mkConsolidated
  by_cases hdc : c.value ∈ DAILY_RATE_CATEGORIES
  · simp [hdc, hsum, hn]
  · simp [hdc, hsum]

/-- C5 (amended): consolidate_categories is a pure function (re-running it on
the same invoice yields the same result), and permuting the line items of an
invoice yields the same consolidated categories with the same totals, daily
rates and quantities up to output order: the value-tuple lists are
permutations of each other. -/
theorem consolidate_perm_invariant (inv1 inv2 : HotelInvoiceDetails)
    (hperm : inv1.line_items.Perm inv2.line_items)
    (hin : inv1.check_in_date = inv2.check_in_date)
    (hout : inv1.check_out_date = inv2.check_out_date) :
    ((consolidate_categories inv1).map ccTuple).Perm
      ((consolidate_categories inv2).map ccTuple) := by
  have hn : consolidateNights inv1 = consolidateNights inv2 := by
    simp only [consolidateNights, hin, hout]
  apply List.perm_of_nodup_nodup_toFinset_eq (consolidate_tuples_nodup inv1)
    (consolidate_tuples_nodup inv2)
  ext t
  simp only [List.mem_toFinset]
  rw [consolidate_tuple_mem, consolidate_tuple_mem]
  constructor
  · rintro ⟨c, hocc, rfl⟩
    refine ⟨c, ?_, tupleOf_perm_eq inv1 inv2 hperm hn c⟩
    obtain ⟨it, hit, hk⟩ := hocc
    exact ⟨it, hperm.mem_iff.mp hit, hk⟩
  · rintro ⟨c, hocc, rfl⟩
    refine ⟨c, ?_, (tupleOf_perm_eq inv1 inv2 hperm hn c).symm⟩
    obtain ⟨it, hit, hk⟩ := hocc
    exact ⟨it, hperm.mem_iff.mpr hit, hk⟩

/-- Witness for the amended C5 at the concrete permuted pair of invoices. -/
theorem consolidate_perm_invariant_witness :
    c5Invoice1.line_items.Perm c5Invoice2.line_items ∧
      ((consolidate_categories c5Invoice1).map ccTuple).Perm
        ((consolidate_categories c5Invoice2).map ccTuple) :=
  ⟨List.Perm.swap c5Item2 c5Item1 [],
   consolidate_perm_invariant c5Invoice1 c5Invoice2
     (List.Perm.swap c5Item2 c5Item1 []) rfl rfl⟩

/-- C6: when an invoice's Ignore items sum to 15.00, its categorized items sum
to 85.00, no item is uncategorized and the invoice total is 100.00,
categorization validation passes (ignored amounts count toward the
reconciliation check) while the assembled itemization result's total_itemized
is 85.00, not 100.00. -/
theorem ignored_in_reconciliation_not_in_total (inv : HotelInvoiceDetails)
    (hnull : ∀ it ∈ inv.line_items, it.user_category ≠ none)
    (hig : ((inv.line_items.filter isIgnored).map
      (fun it => it.amount)).sum = 15)
    (hcat : ((inv.line_items.filter (fun it => (keepCat it).isSome)).map
      (fun it => it.amount)).sum = 85)
    (htot : inv.total_amount = 100) :
    (validate_categorization inv).1 = true ∧
      (create_itemization_result inv
        (consolidate_categories inv)).total_itemized = 85 := by
  have hunc : inv.line_items.filter (fun it => it.user_category.isNone) = [] := by
    rw [List.filter_eq_nil_iff]
    intro it hit
    simp only [Option.isNone_iff_eq_none]
    exact hnull it hit
  constructor
  · rw [validate_categorization_fst]
    suffices h : (validate_categorization inv).2 = [] by rw [h]; rfl
    simp only [validate_categorization, hunc, hig, hcat, htot]
    norm_num
  · show ((consolidate_categories inv).map (fun c => c.total_amount)).sum = 85
    rw [consolidate_total_sum, hcat]

/-- Concrete invoice for the C6 witness: 85.00 categorized, 15.00 Ignore,
total 100.00. -/
def c6Invoice : HotelInvoiceDetails :=
  { hotel_name := "H", check_in_date := 0, check_out_date := 1,
    total_amount := 100,
    line_items :=
      [{ description := "Room", amount := 85,
         user_category := some HotelCategoryEnum.DAILY_ROOM_RATE },
       { description := "Junk", amount := 15,
         user_category := some HotelCategoryEnum.IGNORE }] }

/-- Witness for C6 at the concrete invoice. -/
theorem ignored_in_reconciliation_not_in_total_witness :
    (validate_categorization c6Invoice).1 = true ∧
      (create_itemization_result c6Invoice
        (consolidate_categories c6Invoice)).total_itemized = 85 :=
  ignored_in_reconciliation_not_in_total c6Invoice (by decide)
    (by norm_num +decide [c6Invoice, isIgnored])
    (by norm_num +decide [c6Invoice, keepCat]) rfl

/-- The single uncategorized line item of the C7 invoice. -/
def c7Item : HotelLineItem := { description := "Minibar", amount := 50 }

/-- Concrete invoice with an uncategorized item for C7. -/
def c7Invoice : HotelInvoiceDetails :=
  { hotel_name := "H", check_in_date := 0, check_out_date := 1,
    total_amount := 0, line_items := [c7Item] }

/-- C7 counterexample: validate_categorization does return passed = False on
an invoice with an uncategorized item, but its error list holds the
"Uncategorized items: ..." message — the claimed
"No category assigned for: <description>" string is not in it (that message
is produced by HotelCategorizer.validate_categories instead). -/
theorem c7_counterexample :
    (validate_categorization c7Invoice).1 = false ∧
      (validate_categorization c7Invoice).2 =
        ["Uncategorized items: Minibar"] ∧
      "No category assigned for: Minibar" ∉
        (validate_categorization c7Invoice).2 := by
  have herr : (validate_categorization c7Invoice).2 =
      ["Uncategorized items: Minibar"] := by
    norm_num +decide [validate_categorization, c7Invoice, c7Item, keepCat,
      isIgnored]
  refine ⟨?_, herr, ?_⟩
  · rw [validate_categorization_fst, herr]
    rfl
  · rw [herr]
    decide

/-- C7 (amended): an invoice containing a null-category line item makes
validate_categorization return passed = False (with the
"Uncategorized items:" message), while the "No category assigned for:
<description>" error for that item is emitted by
HotelCategorizer.validate_categories, which then also reports failure. -/
theorem uncategorized_flagged (inv : HotelInvoiceDetails)
    (it : HotelLineItem) (hmem : it ∈ inv.line_items)
    (hnone : it.user_category = none) :
    (validate_categorization inv).1 = false ∧
      ("No category assigned for: " ++ it.description) ∈
        (validate_categories inv).errors ∧
      (validate_categories inv).validation_passed = false := by
  have hu : it.description ∈
      (inv.line_items.filter (fun x => x.user_category.isNone)).map
        (fun x => x.description) :=
    List.mem_map_of_mem _ (List.mem_filter.mpr ⟨hmem, by rw [hnone]; rfl⟩)
  have hmemErr : ("No category assigned for: " ++ it.description) ∈
      (validate_categories inv).errors := by
    simp only [validate_categories]
    apply List.mem_append_left
    exact List.mem_map_of_mem _ (List.mem_filter.mpr ⟨hmem, by rw [hnone]; rfl⟩)
  refine ⟨?_, hmemErr, ?_⟩
  · rw [validate_categorization_fst]
    obtain ⟨a, as, hcons⟩ := List.exists_cons_of_ne_nil (List.ne_nil_of_mem hu)
    simp only [validate_categorization, hcons]
    simp
  · rw [validate_categories_passed]
    obtain ⟨b, bs, hcons2⟩ :=
      List.exists_cons_of_ne_nil (List.ne_nil_of_mem hmemErr)
    rw [hcons2]
    rfl

/-- Witness for the amended C7 at the concrete invoice. -/
theorem uncategorized_flagged_witness :
    (validate_categorization c7Invoice).1 = false ∧
      ("No category assigned for: " ++ "Minibar") ∈
        (validate_categories c7Invoice).errors ∧
      (validate_categories c7Invoice).validation_passed = false :=
  uncategorized_flagged c7Invoice c7Item (List.mem_singleton.mpr rfl) rfl

/-- C9 counterexample: the description "room service" contains the keyword
"room", which the code checks first, so the fallback suggests Daily Room
Rate — not the meals category the claim assigns to "room service". -/
theorem c9_counterexample :
    suggest_category_for_description "room service" 5 =
        HotelCategoryEnum.DAILY_ROOM_RATE ∧
      HotelCategoryEnum.DAILY_ROOM_RATE ≠
        HotelCategoryEnum.ROOM_SERVICE_MEALS := by
  constructor
  · rfl
  · decide

/-- C9 (amended): the fallback suggestion is a case-insensitive keyword
match with the code's keyword lists, checked in priority order with the
first match winning: room/accommodation/stay/night, then
tax/vat/occupancy/city tax, then deposit/advance/prepayment, then
phone/telephone/call/communication, then room service/restaurant/bar/food/
beverage/meal, then laundry/cleaning/valet, defaulting to Incidentals. -/
theorem suggest_keyword_priority (s : String) (a : ℚ) :
    (hasAnyTerm (lowerData s) ROOM_TERMS = true →
      suggest_category_for_description s a =
        HotelCategoryEnum.DAILY_ROOM_RATE) ∧
    (hasAnyTerm (lowerData s) ROOM_TERMS = false →
      hasAnyTerm (lowerData s) TAX_TERMS = true →
      suggest_category_for_description s a = HotelCategoryEnum.HOTEL_TAX) ∧
    (hasAnyTerm (lowerData s) ROOM_TERMS = false →
      hasAnyTerm (lowerData s) TAX_TERMS = false →
      hasAnyTerm (lowerData s) DEPOSIT_TERMS = true →
      suggest_category_for_description s a = HotelCategoryEnum.HOTEL_DEPOSIT) ∧
    (hasAnyTerm (lowerData s) ROOM_TERMS = false →
      hasAnyTerm (lowerData s) TAX_TERMS = false →
      hasAnyTerm (lowerData s) DEPOSIT_TERMS = false →
      hasAnyTerm (lowerData s) PHONE_TERMS = true →
      suggest_category_for_description s a =
        HotelCategoryEnum.HOTEL_TELEPHONE) ∧
    (hasAnyTerm (lowerData s) ROOM_TERMS = false →
      hasAnyTerm (lowerData s) TAX_TERMS = false →
      hasAnyTerm (lowerData s) DEPOSIT_TERMS = false →
      hasAnyTerm (lowerData s) PHONE_TERMS = false →
      hasAnyTerm (lowerData s) MEAL_TERMS = true →
      suggest_category_for_description s a =
        HotelCategoryEnum.ROOM_SERVICE_MEALS) ∧
    (hasAnyTerm (lowerData s) ROOM_TERMS = false →
      hasAnyTerm (lowerData s) TAX_TERMS = false →
      hasAnyTerm (lowerData s) DEPOSIT_TERMS = false →
      hasAnyTerm (lowerData s) PHONE_TERMS = false →
      hasAnyTerm (lowerData s) MEAL_TERMS = false →
      hasAnyTerm (lowerData s) LAUNDRY_TERMS = true →
      suggest_category_for_description s a = HotelCategoryEnum.LAUNDRY) ∧
    (hasAnyTerm (lowerData s) ROOM_TERMS = false →
      hasAnyTerm (lowerData s) TAX_TERMS = false →
      hasAnyTerm (lowerData s) DEPOSIT_TERMS = false →
      hasAnyTerm (lowerData s) PHONE_TERMS = false →
      hasAnyTerm (lowerData s) MEAL_TERMS = false →
      hasAnyTerm (lowerData s) LAUNDRY_TERMS = false →
      suggest_category_for_description s a = HotelCategoryEnum.INCIDENTALS) := by
  refine ⟨?_, ?_, ?_, ?_, ?_, ?_, ?_⟩ <;> intros <;>
    simp_all [suggest_category_for_description]

/-- Witness for the amended C9 at a description matching no keyword. -/
theorem suggest_keyword_priority_witness :
    suggest_category_for_description "parking" 5 =
      HotelCategoryEnum.INCIDENTALS :=
  (suggest_keyword_priority "parking" 5).2.2.2.2.2.2
    (by decide) (by decide) (by decide) (by decide) (by decide) (by decide)

/-- C10: when every line item carries user_category Ignore and the ignored
amounts sum to a positive value, validate_categorization returns
passed = False with the all-Ignore error in its list, even when the
reconciliation check itself succeeds. -/
theorem all_ignore_flagged (inv : HotelInvoiceDetails)
    (hall : ∀ it ∈ inv.line_items,
      it.user_category = some HotelCategoryEnum.IGNORE)
    (hpos : 0 < ((inv.line_items.filter isIgnored).map
      (fun it => it.amount)).sum) :
    (validate_categorization inv).1 = false ∧
      allIgnoreMsg ∈ (validate_categorization inv).2 := by
  have hnullf : inv.line_items.filter
      (fun it => it.user_category.isNone) = [] := by
    rw [List.filter_eq_nil_iff]
    intro it hit
    rw [hall it hit]
    simp
  have hcatf : inv.line_items.filter
      (fun it => (keepCat it).isSome) = [] := by
    rw [List.filter_eq_nil_iff]
    intro it hit
    unfold keepCat
    rw [hall it hit]
    simp
  have hmsg : allIgnoreMsg ∈ (validate_categorization inv).2 := by
    simp [validate_categorization, hnullf, hcatf, hpos]
  refine ⟨?_, hmsg⟩
  rw [validate_categorization_fst]
  obtain ⟨b, bs, hcons⟩ := List.exists_cons_of_ne_nil (List.ne_nil_of_mem hmsg)
  rw [hcons]
  rfl

/-- Concrete all-Ignore invoice for the C10 witness; the ignored total equals
the invoice total, so the reconciliation check itself succeeds. -/
def c10Invoice : HotelInvoiceDetails :=
  { hotel_name := "H", check_in_date := 0, check_out_date := 1,
    total_amount := 100,
    line_items :=
      [{ description := "A", amount := 60,
         user_category := some HotelCategoryEnum.IGNORE },
       { description := "B", amount := 40,
         user_category := some HotelCategoryEnum.IGNORE }] }

/-- Witness for C10 at the concrete all-Ignore invoice. -/
theorem all_ignore_flagged_witness :
    (validate_categorization c10Invoice).1 = false ∧
      allIgnoreMsg ∈ (validate_categorization c10Invoice).2 :=
  all_ignore_flagged c10Invoice (by decide)
    (by norm_num +decide [c10Invoice, isIgnored])

end EzExpense
